import Mathlib

/-!
Verification development for the cinnamon-backend blockchain core.

The JavaScript source is shallowly embedded: JSON.stringify of the fixed
object shapes is modelled by an executable `Json` renderer, JS `Date`
objects by a pair of epoch milliseconds and their ISO rendering, and the
external cryptographic primitives (SHA-256, ECDSA verify/sign, AES-256-GCM)
are parameters of the embedded functions, since their internals are library
code outside this repository.  Every embedded definition mirrors one
function of the source files under src/blockchain.
-/

/-- A JSON value, as produced by the object literals the source hashes. -/
inductive Json where
  | null : Json
  | str (s : String) : Json
  | num (n : Int) : Json
  | bool (b : Bool) : Json
  | obj (fields : List (String × Json)) : Json
  | arr (elems : List Json) : Json

/-- Escape of a single character inside a JSON string literal. -/
def jsonEscapeChar (c : Char) : String :=
  if c = '"' then "\\\""
  else if c = '\\' then "\\\\"
  else if c = '\n' then "\\n"
  else if c = '\t' then "\\t"
  else if c = '\r' then "\\r"
  else String.singleton c

/-- Render of a JSON string literal with quotes, as JSON.stringify does. -/
def jsonString (s : String) : String :=
  "\"" ++ String.join (s.toList.map jsonEscapeChar) ++ "\""

mutual

/-- Executable model of JSON.stringify on the object shapes of the source. -/
def Json.render : Json → String
  | .null => "null"
  | .str s => jsonString s
  | .num n => toString n
  | .bool b => if b then "true" else "false"
  | .obj fs => "\x7b" ++ Json.renderFields fs ++ "\x7d"
  | .arr es => "[" ++ Json.renderElems es ++ "]"

/-- Comma-separated rendering of the fields of a JSON object. -/
def Json.renderFields : List (String × Json) → String
  | [] => ""
  | [(k, v)] => jsonString k ++ ":" ++ Json.render v
  | (k, v) :: rest => jsonString k ++ ":" ++ Json.render v ++ "," ++ Json.renderFields rest

/-- Comma-separated rendering of the elements of a JSON array. -/
def Json.renderElems : List Json → String
  | [] => ""
  | [e] => Json.render e
  | e :: rest => Json.render e ++ "," ++ Json.renderElems rest

end

/-- A JS Date value: its epoch milliseconds together with its ISO-8601
rendering, the two projections of it the source ever uses. -/
structure DateJS where
  millis : Nat
  iso : String
deriving DecidableEq, Repr

/-- Truthiness of a JS string: null and the empty string are falsy. -/
def jsTruthy : Option String → Bool
  | none => false
  | some s => !(s == "")

/-- JSON value of a nullable string field. -/
def jsonOfOptStr : Option String → Json
  | none => .null
  | some s => .str s

/-- JSON value of a nullable integer field. -/
def jsonOfOptInt : Option Int → Json
  | none => .null
  | some n => .num n

/-- JSON value of a nullable structured field. -/
def jsonOfOptJson : Option Json → Json
  | none => .null
  | some j => j

/-- JSON value of a nullable non-negative integer field. -/
def jsonOfOptNat : Option Nat → Json
  | none => .null
  | some n => .num n

/-- Embedding of the Transaction class of src/blockchain/Transaction.js:
one supply-chain event with its signing/derived fields. -/
structure Transaction where
  transactionType : String
  batchNo : String
  actorUserId : Nat
  actorRole : String
  actorPublicKey : Option String
  actorSignature : Option String
  transactionData : Json
  fromEntityId : Option Int
  toEntityId : Option Int
  documentHashes : Option Json
  timestamp : DateJS
  nonce : String
  hash : String

/-- Embedding of Transaction.calculateHash: SHA-256 of the JSON.stringify
of the fixed payload object (all fields except the signature and the hash
itself, with the timestamp rendered by toISOString). -/
def Transaction.calculateHash (sha : String → String) (tx : Transaction) : String :=
  sha (Json.render (.obj [
    ("transactionType", .str tx.transactionType),
    ("batchNo", .str tx.batchNo),
    ("actorUserId", .num tx.actorUserId),
    ("actorRole", .str tx.actorRole),
    ("actorPublicKey", jsonOfOptStr tx.actorPublicKey),
    ("transactionData", tx.transactionData),
    ("fromEntityId", jsonOfOptInt tx.fromEntityId),
    ("toEntityId", jsonOfOptInt tx.toEntityId),
    ("documentHashes", jsonOfOptJson tx.documentHashes),
    ("timestamp", .str tx.timestamp.iso),
    ("nonce", .str tx.nonce)]))

/-- Embedding of CryptoUtils.createTransactionPayload: the object signed by
the actor (no public key, no nonce, no hash). -/
def Transaction.payloadJson (tx : Transaction) : Json :=
  .obj [
    ("transactionType", .str tx.transactionType),
    ("batchNo", .str tx.batchNo),
    ("actorUserId", .num tx.actorUserId),
    ("actorRole", .str tx.actorRole),
    ("transactionData", tx.transactionData),
    ("fromEntityId", jsonOfOptInt tx.fromEntityId),
    ("toEntityId", jsonOfOptInt tx.toEntityId),
    ("documentHashes", jsonOfOptJson tx.documentHashes),
    ("timestamp", .str tx.timestamp.iso)]

/-- Embedding of Transaction.verifySignature, with the ECDSA primitive as
the parameter vf applied to (public key, SHA-256 of the payload, signature)
exactly as CryptoUtils.verifySignature does. -/
def Transaction.verifySignature (sha : String → String)
    (vf : String → String → String → Bool) (tx : Transaction) : Bool :=
  if !(jsTruthy tx.actorSignature) || !(jsTruthy tx.actorPublicKey) then false
  else vf (tx.actorPublicKey.getD "") (sha (Json.render tx.payloadJson))
    (tx.actorSignature.getD "")

/-- Embedding of Transaction.isValid.  The hash-recomputation branch of the
source only logs on mismatch and never alters the result, so it contributes
nothing here; the remaining checks are field presence, signature presence
and verification, and the future-timestamp bound.  now is Date.now() in
epoch milliseconds. -/
def Transaction.isValid (sha : String → String)
    (vf : String → String → String → Bool) (now : Nat) (tx : Transaction)
    (skipCrypto : Bool) : Bool :=
  if tx.transactionType == "" || tx.batchNo == "" || tx.actorUserId == 0
      || tx.actorRole == "" then false
  else if skipCrypto then true
  else if !(jsTruthy tx.actorSignature) || !(jsTruthy tx.actorPublicKey) then false
  else if !(tx.verifySignature sha vf) then false
  else if tx.timestamp.millis > now + 60000 then false
  else true

/-- The serialized form of a transaction: the thirteen fields emitted by
Transaction.toJSON, with the timestamp kept as the Date value. -/
structure TxJson where
  transactionType : String
  batchNo : String
  actorUserId : Nat
  actorRole : String
  actorPublicKey : Option String
  actorSignature : Option String
  transactionData : Json
  fromEntityId : Option Int
  toEntityId : Option Int
  documentHashes : Option Json
  timestamp : DateJS
  nonce : String
  hash : String

/-- Embedding of Transaction.toJSON. -/
def Transaction.toJSON (tx : Transaction) : TxJson :=
  { transactionType := tx.transactionType
    batchNo := tx.batchNo
    actorUserId := tx.actorUserId
    actorRole := tx.actorRole
    actorPublicKey := tx.actorPublicKey
    actorSignature := tx.actorSignature
    transactionData := tx.transactionData
    fromEntityId := tx.fromEntityId
    toEntityId := tx.toEntityId
    documentHashes := tx.documentHashes
    timestamp := tx.timestamp
    nonce := tx.nonce
    hash := tx.hash }

/-- Embedding of the Transaction constructor: the nonce falls back to a
fresh random nonce when absent or empty, and the hash falls back to
calculateHash over the fields just set.  freshNonce stands for the
CryptoUtils.generateNonce() result. -/
def mkTransaction (sha : String → String) (transactionType batchNo : String)
    (actorUserId : Nat) (actorRole : String)
    (actorPublicKey actorSignature : Option String) (transactionData : Json)
    (fromEntityId toEntityId : Option Int) (documentHashes : Option Json)
    (timestamp : DateJS) (nonceArg hashArg : Option String)
    (freshNonce : String) : Transaction :=
  let base : Transaction :=
    { transactionType, batchNo, actorUserId, actorRole, actorPublicKey,
      actorSignature, transactionData, fromEntityId, toEntityId,
      documentHashes, timestamp,
      nonce := if jsTruthy nonceArg then nonceArg.getD "" else freshNonce,
      hash := "" }
  { base with
    hash := if jsTruthy hashArg then hashArg.getD ""
      else base.calculateHash sha }

/-- Embedding of Transaction.fromJSON: every serialized field is passed back
to the constructor except the hash, which is therefore recomputed. -/
def Transaction.fromJSON (sha : String → String) (d : TxJson)
    (freshNonce : String) : Transaction :=
  mkTransaction sha d.transactionType d.batchNo d.actorUserId d.actorRole
    d.actorPublicKey d.actorSignature d.transactionData d.fromEntityId
    d.toEntityId d.documentHashes d.timestamp (some d.nonce) none freshNonce

/-- Substring model of JS s.substring(0, n): the first n characters (fewer
when the string is shorter). -/
def jsSubstringTo (s : String) (n : Nat) : String :=
  (s.toList.take n).asString

/-- The proof-of-work target string: n zero characters. -/
def zeroTarget (n : Nat) : String :=
  (List.replicate n '0').asString

/-- Embedding of one pass of the pairwise-combining for loop inside
Block.calculateMerkleRoot, starting at index i and stepping by two: a full
pair is hashed as sha(h[i] ++ h[i+1]), a trailing odd element as
sha(h[i] ++ h[i]).  The structural fuel only bounds the iteration count;
the wrapper below supplies a provably sufficient amount. -/
def merkleCombineGo (sha : String → String) (hs : List String) :
    Nat → Nat → List String
  | 0, _ => []
  | fuel + 1, i =>
    if i + 1 < hs.length then
      sha (hs.getD i "" ++ hs.getD (i + 1) "")
        :: merkleCombineGo sha hs fuel (i + 2)
    else if i < hs.length then
      [sha (hs.getD i "" ++ hs.getD i "")]
    else []

/-- One combining pass of the source loop from index i (the loop runs at
most one iteration per remaining element). -/
def merkleCombineFrom (sha : String → String) (hs : List String) (i : Nat) :
    List String :=
  merkleCombineGo sha hs hs.length i

/-- Embedding of the while loop of Block.calculateMerkleRoot: combine
layers until at most one hash remains, then return hashes[0].  Each pass at
least halves the layer, so the initial length bounds the pass count. -/
def merkleLoopGo (sha : String → String) : Nat → List String → String
  | 0, hs => hs.getD 0 ""
  | fuel + 1, hs =>
    if hs.length > 1 then merkleLoopGo sha fuel (merkleCombineFrom sha hs 0)
    else hs.getD 0 ""

/-- The while loop of Block.calculateMerkleRoot with its sufficient fuel. -/
def merkleLoop (sha : String → String) (hs : List String) : String :=
  merkleLoopGo sha hs.length hs

/-- Embedding of Block.hashTransaction: the fallback digest for a
transaction without a stored hash (a smaller field set than
Transaction.calculateHash). -/
def hashTransactionFallback (sha : String → String) (tx : Transaction) : String :=
  sha (Json.render (.obj [
    ("transactionType", .str tx.transactionType),
    ("batchNo", .str tx.batchNo),
    ("actorUserId", .num tx.actorUserId),
    ("actorRole", .str tx.actorRole),
    ("transactionData", tx.transactionData),
    ("timestamp", .str tx.timestamp.iso)]))

/-- Embedding of the Block class of src/blockchain/Block.js. -/
structure Block where
  blockNumber : Nat
  previousHash : String
  transactions : List Transaction
  timestamp : DateJS
  nonce : Nat
  difficulty : Nat
  validatorUserId : Option Nat
  validatorPublicKey : Option String
  validatorSignature : Option String
  merkleRoot : String
  hash : String

/-- Embedding of Block.calculateHash: SHA-256 of the JSON.stringify of the
eight block-header fields, excluding the validator signature and the hash
itself. -/
def Block.calculateHash (sha : String → String) (b : Block) : String :=
  sha (Json.render (.obj [
    ("blockNumber", .num b.blockNumber),
    ("previousHash", .str b.previousHash),
    ("merkleRoot", .str b.merkleRoot),
    ("timestamp", .str b.timestamp.iso),
    ("nonce", .num b.nonce),
    ("difficulty", .num b.difficulty),
    ("validatorUserId", jsonOfOptNat b.validatorUserId),
    ("validatorPublicKey", jsonOfOptStr b.validatorPublicKey)]))

/-- Embedding of Block.calculateMerkleRoot over a transaction list: the
empty list hashes the empty string, otherwise the hash list (stored hash,
or the fallback digest when absent) is folded pairwise. -/
def calculateMerkleRootTxs (sha : String → String) (txs : List Transaction) :
    String :=
  if txs.length = 0 then sha ""
  else merkleLoop sha (txs.map fun tx =>
    if tx.hash == "" then hashTransactionFallback sha tx else tx.hash)

/-- Embedding of Block.calculateMerkleRoot. -/
def Block.calculateMerkleRoot (sha : String → String) (b : Block) : String :=
  calculateMerkleRootTxs sha b.transactions

/-- The block-identity payload signed by the validator in Block.signBlock
and checked in Block.verifyBlockSignature. -/
def Block.signaturePayload (b : Block) : Json :=
  .obj [
    ("blockNumber", .num b.blockNumber),
    ("previousHash", .str b.previousHash),
    ("merkleRoot", .str b.merkleRoot),
    ("hash", .str b.hash),
    ("timestamp", .str b.timestamp.iso)]

/-- Embedding of Block.verifyBlockSignature. -/
def Block.verifyBlockSignature (sha : String → String)
    (vf : String → String → String → Bool) (b : Block) : Bool :=
  if !(jsTruthy b.validatorSignature) || !(jsTruthy b.validatorPublicKey) then
    false
  else vf (b.validatorPublicKey.getD "")
    (sha (Json.render b.signaturePayload)) (b.validatorSignature.getD "")

/-- Embedding of Block.isValid: hash integrity, Merkle root, proof-of-work
for non-genesis blocks, the optional validator signature, and the contained
transactions, whose cryptographic validation is skipped whenever the block
is genesis or holds at least one transaction. -/
def Block.isValid (sha : String → String)
    (vf : String → String → String → Bool) (now : Nat) (b : Block) : Bool :=
  if !(b.hash == b.calculateHash sha) then false
  else if !(b.merkleRoot == b.calculateMerkleRoot sha) then false
  else if b.blockNumber > 0
      && !(jsSubstringTo b.hash b.difficulty == zeroTarget b.difficulty) then
    false
  else if jsTruthy b.validatorSignature && jsTruthy b.validatorPublicKey
      && !(b.verifyBlockSignature sha vf) then
    false
  else
    let skipCrypto := b.blockNumber == 0 || decide (b.transactions.length > 0)
    b.transactions.all fun tx => tx.isValid sha vf now skipCrypto

/-- Embedding of the Block constructor: the Merkle root falls back to the
computed root and the hash to calculateHash over the fields just set. -/
def mkBlock (sha : String → String) (blockNumber : Nat) (previousHash : String)
    (transactions : List Transaction) (timestamp : DateJS)
    (nonce difficulty : Nat) (validatorUserId : Option Nat)
    (validatorPublicKey validatorSignature : Option String)
    (hashArg merkleArg : Option String) : Block :=
  let b0 : Block :=
    { blockNumber, previousHash, transactions, timestamp, nonce, difficulty,
      validatorUserId, validatorPublicKey, validatorSignature,
      merkleRoot := "", hash := "" }
  let b1 := { b0 with
    merkleRoot := if jsTruthy merkleArg then merkleArg.getD ""
      else b0.calculateMerkleRoot sha }
  { b1 with
    hash := if jsTruthy hashArg then hashArg.getD ""
      else b1.calculateHash sha }

/-- Embedding of the while loop of Block.mineBlock, with explicit fuel so
the search is total; none models a search that has not yet terminated. -/
def Block.mineLoop (sha : String → String) (b : Block) : Nat → Option Block
  | 0 => none
  | fuel + 1 =>
    if jsSubstringTo b.hash b.difficulty == zeroTarget b.difficulty then some b
    else
      let b1 : Block := { b with nonce := b.nonce + 1 }
      Block.mineLoop sha { b1 with hash := b1.calculateHash sha } fuel

/-- Embedding of Block.mineBlock: the difficulty is set first (without
recomputing the initial hash), then the nonce search runs. -/
def Block.mineBlock (sha : String → String) (b : Block) (difficulty : Nat)
    (fuel : Nat) : Option Block :=
  Block.mineLoop sha { b with difficulty := difficulty } fuel

/-- Embedding of Block.signBlock: the validator identity fields are set and
the ECDSA primitive sg signs the SHA-256 of the block-identity payload. -/
def Block.signBlock (sha : String → String) (sg : String → String → String)
    (b : Block) (validatorPrivateKey validatorPublicKey : String)
    (validatorUserId : Option Nat) : Block :=
  let b1 := { b with
    validatorUserId := validatorUserId,
    validatorPublicKey := some validatorPublicKey }
  { b1 with
    validatorSignature :=
      some (sg validatorPrivateKey (sha (Json.render b1.signaturePayload))) }

/-- Embedding of the chain-engine state of the Blockchain class: the block
list, the pending pool, the replay set of processed transaction hashes and
the current mining difficulty.  The validator set and timing constants are
class fields not touched by the operations embedded here. -/
structure ChainState where
  chain : List Block
  pendingTransactions : List Transaction
  processedTransactions : List String
  difficulty : Nat

/-- Embedding of Blockchain.createGenesisBlock: block 0 with previous hash
"0", no transactions and difficulty 0, appended to the chain. -/
def createGenesisBlock (sha : String → String) (st : ChainState)
    (ts : DateJS) : Block × ChainState :=
  let genesisBlock := mkBlock sha 0 "0" [] ts 0 0 none none none none none
  (genesisBlock, { st with chain := st.chain ++ [genesisBlock] })

/-- Embedding of Blockchain.adjustDifficulty: the new difficulty value
(the source also stores it back into the engine, which the caller of this
function does). -/
def adjustDifficultyValue (st : ChainState) : Nat :=
  if st.chain.length < 10 then st.difficulty
  else if st.chain.length % 10 ≠ 0 then st.difficulty
  else
    let recentBlocks := st.chain.drop (st.chain.length - 10)
    let firstMs : Int := ((recentBlocks.head?.map fun b => b.timestamp.millis).getD 0 : Nat)
    let lastMs : Int := ((recentBlocks.getLast?.map fun b => b.timestamp.millis).getD 0 : Nat)
    let timeSpan := lastMs - firstMs
    let expectedTime : Int := 10000 * 10
    if timeSpan < expectedTime / 2 then st.difficulty + 1
    else if timeSpan > expectedTime * 2 then max 1 (st.difficulty - 1)
    else st.difficulty

/-- Embedding of Blockchain.createBlock: slice up to 5000 pending
transactions, build the block at the adjusted difficulty, mine it unless it
is genesis, sign it when full validator credentials are given, and append
it to the chain.  none models a mining search that exhausts its fuel. -/
def bcCreateBlock (sha : String → String) (sg : String → String → String)
    (st : ChainState) (validatorUserId : Option Nat)
    (validatorPrivateKey validatorPublicKey : Option String) (ts : DateJS)
    (fuel : Nat) : Option (Option Block × ChainState) :=
  if st.pendingTransactions.length = 0 then some (none, st)
  else
    let latest := st.chain.getLast?
    let blockNumber := match latest with
      | some b => b.blockNumber + 1
      | none => 0
    let previousHash := match latest with
      | some b => b.hash
      | none => "0"
    let currentDifficulty := adjustDifficultyValue st
    let st1 := { st with difficulty := currentDifficulty }
    let txs := st1.pendingTransactions.take 5000
    let pending1 := st1.pendingTransactions.drop 5000
    let newBlock := mkBlock sha blockNumber previousHash txs ts 0
      currentDifficulty validatorUserId validatorPublicKey none none none
    let minedOpt := if blockNumber > 0
      then newBlock.mineBlock sha currentDifficulty fuel
      else some newBlock
    minedOpt.map fun mined =>
      let hasSigner := jsTruthy validatorPrivateKey && jsTruthy validatorPublicKey
        && (match validatorUserId with
            | some u => !(u == 0)
            | none => false)
      let sealed := if hasSigner
        then Block.signBlock sha sg mined (validatorPrivateKey.getD "")
          (validatorPublicKey.getD "") validatorUserId
        else mined
      (some sealed,
        { st1 with
          pendingTransactions := pending1,
          chain := st1.chain ++ [sealed] })

/-- Embedding of the loop of Blockchain.isChainValid from index 1 on: each
block must be internally valid, link to the previous hash, continue the
numbering and meet its proof-of-work target. -/
def chainSegmentValid (sha : String → String)
    (vf : String → String → String → Bool) (now : Nat) (prev : Block) :
    List Block → Bool
  | [] => true
  | b :: rest =>
    if !(b.isValid sha vf now) then false
    else if !(b.previousHash == prev.hash) then false
    else if !(b.blockNumber == prev.blockNumber + 1) then false
    else if !(jsSubstringTo b.hash b.difficulty == zeroTarget b.difficulty) then
      false
    else chainSegmentValid sha vf now b rest

/-- Embedding of Blockchain.isChainValid: a non-empty chain whose genesis
has previous hash "0" and whose every later block passes the segment
checks. -/
def isChainValid (sha : String → String)
    (vf : String → String → String → Bool) (now : Nat)
    (chain : List Block) : Bool :=
  match chain with
  | [] => false
  | g :: rest =>
    if !(g.previousHash == "0") then false
    else chainSegmentValid sha vf now g rest

/-- A user's rate-limit window entry: transaction count and the window's
reset instant in epoch milliseconds. -/
structure RateEntry where
  count : Nat
  resetTime : Nat
deriving DecidableEq, Repr

/-- The rateLimitMap of BlockchainService: user id to window entry. -/
abbrev RateMap := List (Nat × RateEntry)

/-- Lookup in the rate-limit map (JS Map.get). -/
def lookupRate (m : RateMap) (userId : Nat) : Option RateEntry :=
  (m.find? fun p => p.1 == userId).map fun p => p.2

/-- Update of the rate-limit map (JS Map.set: replace or insert). -/
def setRate (m : RateMap) (userId : Nat) (e : RateEntry) : RateMap :=
  if (m.find? fun p => p.1 == userId).isSome then
    m.map fun p => if p.1 == userId then (userId, e) else p
  else m ++ [(userId, e)]

/-- The rate window length of BlockchainService (60000 ms). -/
def rateLimitWindow : Nat := 60000

/-- The per-window quota of BlockchainService (100 transactions). -/
def rateLimitMax : Nat := 100

/-- Embedding of BlockchainService.checkRateLimit: a missing or expired
entry is replaced by a fresh one with count 1 and the check passes; a full
window fails without touching the entry; otherwise the count is
incremented. -/
def checkRateLimit (m : RateMap) (userId now : Nat) : Bool × RateMap :=
  match lookupRate m userId with
  | none => (true, setRate m userId ⟨1, now + rateLimitWindow⟩)
  | some userLimit =>
    if now > userLimit.resetTime then
      (true, setRate m userId ⟨1, now + rateLimitWindow⟩)
    else if userLimit.count ≥ rateLimitMax then (false, m)
    else (true, setRate m userId ⟨userLimit.count + 1, userLimit.resetTime⟩)

/-- The in-memory state of BlockchainService relevant to transaction
admission: the chain engine and the rate-limit map. -/
structure SvcState where
  bc : ChainState
  rateMap : RateMap

/-- The value returned by BlockchainService.addTransaction: the success
flag, the sealed block when one was produced, the pending marker, and the
error message of the catch branch. -/
structure AddResult where
  success : Bool
  block : Option Block
  pending : Bool
  errorMsg : Option String

/-- Embedding of BlockchainService.addTransaction on the autoCreateBlock
path.  persistOk models whether the database transaction of persistBlock
commits; when it throws, the catch branch returns a failure result without
undoing any in-memory mutation.  validatorKeys models the private/public
keys loaded from the KeyManager (none when unavailable).  The overall
none result models a mining search that exhausts its fuel. -/
def serviceAddTransaction (sha : String → String)
    (vf : String → String → String → Bool) (sg : String → String → String)
    (now : Nat) (st : SvcState) (tx : Transaction) (ts : DateJS)
    (validatorUserId : Option Nat) (validatorKeys : Option (String × String))
    (persistOk : Bool) (fuel : Nat) : Option (AddResult × SvcState) :=
  let checked := checkRateLimit st.rateMap tx.actorUserId now
  let st1 := { st with rateMap := checked.2 }
  if !checked.1 then
    some ({
      success := false, block := none, pending := false,
      errorMsg := some "Rate limit exceeded. Too many transactions in short time." }, st1)
  else if !(tx.isValid sha vf now false) then
    some ({
      success := false, block := none, pending := false,
      errorMsg := some "Cannot add invalid transaction" }, st1)
  else if st1.bc.processedTransactions.contains tx.hash then
    some ({
      success := false, block := none, pending := false,
      errorMsg := some "Transaction already processed (replay attack prevented)" }, st1)
  else
    let bc1 := { st1.bc with
      pendingTransactions := st1.bc.pendingTransactions ++ [tx],
      processedTransactions := st1.bc.processedTransactions ++ [tx.hash] }
    let autoStep := if bc1.pendingTransactions.length ≥ 5000
      then bcCreateBlock sha sg bc1 none none none ts fuel
      else some (none, bc1)
    match autoStep with
    | none => none
    | some (_autoBlock, bc2) =>
      match bcCreateBlock sha sg bc2 validatorUserId
          (validatorKeys.map fun p => p.1) (validatorKeys.map fun p => p.2)
          ts fuel with
      | none => none
      | some (blockOpt, bc3) =>
        let st2 := { st1 with bc := bc3 }
        match blockOpt with
        | none =>
          some ({
            success := true, block := none, pending := true,
            errorMsg := none }, st2)
        | some b =>
          if persistOk then
            some ({
              success := true, block := some b, pending := false,
              errorMsg := none }, st2)
          else
            some ({
              success := false, block := none, pending := false,
              errorMsg := some "persistBlock failed" }, st2)

/-- Hex digit predicate: the characters a SHA-256 digest or Node hex
encoding produces. -/
def isHexChar (c : Char) : Bool :=
  ("0123456789abcdef".toList).contains c

/-- A string entirely of hex digits. -/
def isHexString (s : String) : Bool :=
  s.toList.all isHexChar

/-- Character-level embedding of JS String.split(':'). -/
def splitOnColonChars : List Char → List (List Char)
  | [] => [[]]
  | c :: rest =>
    let r := splitOnColonChars rest
    if c = ':' then [] :: r
    else
      match r with
      | [] => [[c]]
      | p :: ps => (c :: p) :: ps

/-- Embedding of JS String.split(':') on strings. -/
def jsSplitColon (s : String) : List String :=
  (splitOnColonChars s.toList).map List.asString

/-- Interface of the AES-256-GCM primitive used by the KeyManager, stated
over hex-encoded ciphertext and authentication tag: encryption with a key
and IV is inverted by decryption with the same key and IV, and the
authentication tag makes decryption under any other key fail.  The
concrete algorithm is Node library code outside this repository. -/
structure GCMCipher where
  encrypt : String → String → String → String × String
  decrypt : String → String → String → String → Option String
  encrypt_hex_ct : ∀ k iv m, isHexString (encrypt k iv m).1 = true
  encrypt_hex_tag : ∀ k iv m, isHexString (encrypt k iv m).2 = true
  decrypt_encrypt : ∀ k iv m,
    decrypt k iv (encrypt k iv m).1 (encrypt k iv m).2 = some m
  decrypt_wrong_key : ∀ k k2 iv m, k ≠ k2 →
    decrypt k2 iv (encrypt k iv m).1 (encrypt k iv m).2 = none

/-- Embedding of KeyManager.getEncryptionSecret: SHA-256 of
"base:userId" where base is the password, else the configured JWT secret,
else the hardcoded default. -/
def getEncryptionSecret (sha : String → String) (jwtSecret : Option String)
    (userId : Nat) (password : Option String) : String :=
  let base := if jsTruthy password then password.getD ""
    else if jsTruthy jwtSecret then jwtSecret.getD ""
    else "default-secret-change-me"
  sha (base ++ ":" ++ toString userId)

/-- Embedding of KeyManager.encryptPrivateKey: seal the private key under
the user-derived secret and emit iv_hex:tag_hex:ciphertext_hex.  iv is the
hex rendering of the random 16-byte IV. -/
def encryptPrivateKey (C : GCMCipher) (sha : String → String)
    (jwtSecret : Option String) (privateKey : String) (userId : Nat)
    (iv : String) : String :=
  let secret := getEncryptionSecret sha jwtSecret userId none
  let sealed := C.encrypt secret iv privateKey
  iv ++ ":" ++ sealed.2 ++ ":" ++ sealed.1

/-- Embedding of KeyManager.decryptPrivateKey: split the sealed string on
':', require exactly three parts, rederive the secret and decrypt; every
failure surfaces as the single wrapped error of the source's catch. -/
def decryptPrivateKey (C : GCMCipher) (sha : String → String)
    (jwtSecret : Option String) (encryptedData : String) (userId : Nat)
    (password : Option String) : Except String String :=
  match jsSplitColon encryptedData with
  | [p0, p1, p2] =>
    let secret := getEncryptionSecret sha jwtSecret userId password
    match C.decrypt secret p0 p2 p1 with
    | some m => .ok m
    | none => .error "Failed to decrypt private key"
  | _ => .error "Failed to decrypt private key"

/-- One row of the user_keys relation. -/
structure KeyRecord where
  user_id : Nat
  public_key : String
  encrypted_private_key : String
  key_version : Nat
  is_active : Bool
deriving DecidableEq, Repr

/-- The user_keys relation as the ordered list of its rows. -/
abbrev KeyStore := List KeyRecord

/-- The object returned by KeyManager.generateKeysForUser. -/
structure GenResult where
  publicKey : String
  privateKey : String
  keyVersion : Nat
deriving DecidableEq, Repr

/-- Embedding of KeyManager.generateKeysForUser: the fresh keypair is the
(publicKey, privateKey) parameter pair (the source draws it at random), the
private key is sealed, and rows for the user are updated in place when any
exist (key_version incremented from the first matching row, is_active left
untouched), else a fresh active version-1 row is inserted. -/
def generateKeysForUser (C : GCMCipher) (sha : String → String)
    (jwtSecret : Option String) (store : KeyStore) (userId : Nat)
    (publicKey privateKey : String) (iv : String) : GenResult × KeyStore :=
  let encryptedPrivateKey := encryptPrivateKey C sha jwtSecret privateKey userId iv
  let existing := store.filter fun r => r.user_id == userId
  match existing with
  | [] =>
    ({ publicKey, privateKey, keyVersion := 1 },
     store ++ [{
       user_id := userId, public_key := publicKey,
       encrypted_private_key := encryptedPrivateKey, key_version := 1,
       is_active := true }])
  | r0 :: _ =>
    ({ publicKey, privateKey, keyVersion := r0.key_version + 1 },
     store.map fun r =>
       if r.user_id == userId then
         { r with
           public_key := publicKey,
           encrypted_private_key := encryptedPrivateKey,
           key_version := r0.key_version + 1 }
       else r)

/-- The k-th lowercase hex digit (f for out-of-range input). -/
def hexDigit (k : Nat) : Char :=
  "0123456789abcdef".toList.getD k 'f'

/-- Numeric value of a lowercase hex digit. -/
def hexVal : Char → Nat
  | '0' => 0 | '1' => 1 | '2' => 2 | '3' => 3 | '4' => 4 | '5' => 5
  | '6' => 6 | '7' => 7 | '8' => 8 | '9' => 9 | 'a' => 10 | 'b' => 11
  | 'c' => 12 | 'd' => 13 | 'e' => 14 | 'f' => 15 | _ => 0

/-- Decoding inverts the digit table below 16. -/
theorem hexVal_hexDigit (k : Nat) (h : k < 16) : hexVal (hexDigit k) = k := by
  interval_cases k <;> rfl

/-- Every digit the table produces is a hex character. -/
theorem isHexChar_hexDigit (k : Nat) : isHexChar (hexDigit k) = true := by
  unfold hexDigit
  rcases Nat.lt_or_ge k 16 with h | h
  · interval_cases k <;> rfl
  · rw [List.getD_eq_default]
    · rfl
    · simpa using h

/-- Six-hex-digit encoding of one character's code point. -/
def hexEncodeChar (c : Char) : List Char :=
  [hexDigit (c.toNat / 1048576 % 16), hexDigit (c.toNat / 65536 % 16),
   hexDigit (c.toNat / 4096 % 16), hexDigit (c.toNat / 256 % 16),
   hexDigit (c.toNat / 16 % 16), hexDigit (c.toNat % 16)]

/-- Decoding of one six-hex-digit group back to a character. -/
def hexDecodeChar (a b c d e f : Char) : Char :=
  Char.ofNat (hexVal a * 1048576 + hexVal b * 65536 + hexVal c * 4096
    + hexVal d * 256 + hexVal e * 16 + hexVal f)

/-- Code points of characters are below 0x110000. -/
theorem charToNat_lt (c : Char) : c.toNat < 1114112 := by
  have h := c.valid
  rcases h with h | h
  · have : c.toNat < 55296 := h
    omega
  · exact h.2

/-- Group decoding inverts group encoding. -/
theorem hexDecodeChar_hexEncodeChar (c : Char) :
    hexDecodeChar (hexDigit (c.toNat / 1048576 % 16))
      (hexDigit (c.toNat / 65536 % 16)) (hexDigit (c.toNat / 4096 % 16))
      (hexDigit (c.toNat / 256 % 16)) (hexDigit (c.toNat / 16 % 16))
      (hexDigit (c.toNat % 16)) = c := by
  have hlt : c.toNat < 1114112 := charToNat_lt c
  rw [hexDecodeChar,
    hexVal_hexDigit _ (Nat.mod_lt _ (by norm_num)),
    hexVal_hexDigit _ (Nat.mod_lt _ (by norm_num)),
    hexVal_hexDigit _ (Nat.mod_lt _ (by norm_num)),
    hexVal_hexDigit _ (Nat.mod_lt _ (by norm_num)),
    hexVal_hexDigit _ (Nat.mod_lt _ (by norm_num)),
    hexVal_hexDigit _ (Nat.mod_lt _ (by norm_num))]
  have harith : c.toNat / 1048576 % 16 * 1048576 + c.toNat / 65536 % 16 * 65536
      + c.toNat / 4096 % 16 * 4096 + c.toNat / 256 % 16 * 256
      + c.toNat / 16 % 16 * 16 + c.toNat % 16 = c.toNat := by omega
  rw [harith, Char.ofNat_toNat]

/-- Hex encoding of a whole string, six digits per character. -/
def hexEncodeStr (s : String) : String :=
  ((s.toList.map hexEncodeChar).flatten).asString

/-- Hex decoding of a character list in six-digit groups. -/
def hexDecodeChars : List Char → Option (List Char)
  | [] => some []
  | a :: b :: c :: d :: e :: f :: rest =>
    (hexDecodeChars rest).map fun l => hexDecodeChar a b c d e f :: l
  | _ => none

/-- Hex decoding of a whole string. -/
def hexDecodeStr (s : String) : Option String :=
  (hexDecodeChars s.toList).map List.asString

/-- List-level decoding inverts list-level encoding. -/
theorem hexDecodeChars_encode (l : List Char) :
    hexDecodeChars ((l.map hexEncodeChar).flatten) = some l := by
  induction l with
  | nil => rfl
  | cons c rest ih =>
    simp only [List.map_cons, List.flatten_cons, hexEncodeChar,
      List.cons_append, List.nil_append]
    rw [hexDecodeChars, ih]
    rw [hexDecodeChar_hexEncodeChar c]
    rfl

/-- String-level decoding inverts string-level encoding. -/
theorem hexDecodeStr_encode (s : String) :
    hexDecodeStr (hexEncodeStr s) = some s := by
  have h1 : (hexEncodeStr s).toList = (s.toList.map hexEncodeChar).flatten := by
    simp [hexEncodeStr, List.asString, String.toList]
  rw [hexDecodeStr, h1, hexDecodeChars_encode]
  cases s
  simp [List.asString, String.toList]

/-- The string-level hex encoding is injective. -/
theorem hexEncodeStr_injective {s t : String}
    (h : hexEncodeStr s = hexEncodeStr t) : s = t := by
  have hs := hexDecodeStr_encode s
  have ht := hexDecodeStr_encode t
  rw [h, ht] at hs
  exact (Option.some_injective _ hs).symm

/-- The hex encoding only emits hex characters. -/
theorem isHexString_hexEncodeStr (s : String) :
    isHexString (hexEncodeStr s) = true := by
  have h1 : (hexEncodeStr s).toList = (s.toList.map hexEncodeChar).flatten := by
    simp [hexEncodeStr, List.asString, String.toList]
  rw [isHexString, h1, List.all_eq_true]
  intro c hc
  rw [List.mem_flatten] at hc
  obtain ⟨sub, hsub, hcsub⟩ := hc
  rw [List.mem_map] at hsub
  obtain ⟨c0, _, rfl⟩ := hsub
  simp only [hexEncodeChar, List.mem_cons, List.not_mem_nil, or_false] at hcsub
  rcases hcsub with rfl | rfl | rfl | rfl | rfl | rfl <;>
    exact isHexChar_hexDigit _

/-- String append is right-cancellative. -/
theorem stringAppend_right_cancel {a b : String} (c : String)
    (h : a ++ c = b ++ c) : a = b := by
  have hl : a.toList ++ c.toList = b.toList ++ c.toList := by
    have := congrArg String.toList h
    simpa [String.toList] using this
  have hdata : a.data = b.data := by
    simpa [String.toList] using List.append_cancel_right hl
  cases a
  cases b
  exact congrArg String.mk hdata

/-- A law-abiding witness cipher: the ciphertext hex-encodes the message
and the tag hex-encodes key and IV, so decryption checks the tag and
decodes.  It witnesses that the GCMCipher interface is satisfiable. -/
def toyGCM : GCMCipher where
  encrypt := fun k iv m => (hexEncodeStr m, hexEncodeStr (k ++ iv))
  decrypt := fun k iv ct tag =>
    if tag = hexEncodeStr (k ++ iv) then hexDecodeStr ct else none
  encrypt_hex_ct := fun _ _ m => isHexString_hexEncodeStr m
  encrypt_hex_tag := fun k iv _ => isHexString_hexEncodeStr (k ++ iv)
  decrypt_encrypt := fun k iv m => by
    simp [hexDecodeStr_encode m]
  decrypt_wrong_key := fun k k2 iv m hne => by
    have htag : hexEncodeStr (k ++ iv) ≠ hexEncodeStr (k2 ++ iv) := by
      intro h
      exact hne (stringAppend_right_cancel iv (hexEncodeStr_injective h))
    simp [htag]

/-- Canonical block-header serialization as the spec describes it: exactly
the eight fields block_number, previous_hash, merkle_root, timestamp
(ISO-8601), nonce, difficulty, validator_user_id, validator_public_key in
that order, null for absent optional fields, excluding the validator
signature and the hash itself. -/
def specBlockHeaderJson (b : Block) : Json :=
  .obj [
    ("blockNumber", .num b.blockNumber),
    ("previousHash", .str b.previousHash),
    ("merkleRoot", .str b.merkleRoot),
    ("timestamp", .str b.timestamp.iso),
    ("nonce", .num b.nonce),
    ("difficulty", .num b.difficulty),
    ("validatorUserId", jsonOfOptNat b.validatorUserId),
    ("validatorPublicKey", jsonOfOptStr b.validatorPublicKey)]

/-- Presence of the four required transaction fields, the first check of
Transaction.isValid. -/
def requiredFieldsPresent (tx : Transaction) : Bool :=
  !(tx.transactionType == "" || tx.batchNo == "" || tx.actorUserId == 0
    || tx.actorRole == "")

/-- Closed form of Transaction.isValid without skip: required fields,
signature and key presence, signature verification, and the 60-second
future tolerance; the stored hash plays no role. -/
theorem txIsValid_eq (sha : String → String)
    (vf : String → String → String → Bool) (now : Nat) (tx : Transaction) :
    Transaction.isValid sha vf now tx false =
      (requiredFieldsPresent tx && jsTruthy tx.actorSignature
       && jsTruthy tx.actorPublicKey && tx.verifySignature sha vf
       && !(decide (tx.timestamp.millis > now + 60000))) := by
  rw [Transaction.isValid, requiredFieldsPresent]
  cases hA : (tx.transactionType == "" || tx.batchNo == "" || tx.actorUserId == 0
      || tx.actorRole == "") <;>
  cases hS : jsTruthy tx.actorSignature <;>
  cases hP : jsTruthy tx.actorPublicKey <;>
  cases hV : tx.verifySignature sha vf <;>
  by_cases hT : tx.timestamp.millis > now + 60000 <;>
  simp [hA, hS, hP, hV, hT]

/-- The fixed reference instant used by concrete witnesses. -/
def ts0 : DateJS := ⟨0, "1970-01-01T00:00:00.000Z"⟩

/-- A constant stand-in hash whose digests trivially meet difficulty 2. -/
def shaCE : String → String := fun _ => "00"

/-- A signature primitive that accepts everything. -/
def vfTrue : String → String → String → Bool := fun _ _ _ => true

/-- A signature primitive that rejects everything. -/
def vfFalse : String → String → String → Bool := fun _ _ _ => false

/-- A constant signing primitive. -/
def sgCE : String → String → String := fun _ _ => "sig"

/-- A concrete well-formed transaction whose stored hash disagrees with the
recomputed digest under shaCE. -/
def txGood : Transaction :=
  { transactionType := "BATCH_CREATE", batchNo := "BATCH001",
    actorUserId := 7, actorRole := "farmer", actorPublicKey := some "pk",
    actorSignature := some "sg", transactionData := Json.null,
    fromEntityId := none, toEntityId := none, documentHashes := none,
    timestamp := ts0, nonce := "n1", hash := "deadbeef" }

/-- C4: for every block, calculateHash is SHA-256 of the canonical JSON of
exactly the eight header fields in the specified order, and it is invariant
under the excluded fields (validator signature, stored hash) and the
transaction list. -/
theorem blockHash_canonical_serialization (sha : String → String) (b : Block)
    (sig : Option String) (h2 : String) (txs : List Transaction) :
    Block.calculateHash sha b = sha (Json.render (specBlockHeaderJson b)) ∧
    Block.calculateHash sha
        { b with validatorSignature := sig, hash := h2, transactions := txs }
      = Block.calculateHash sha b :=
  ⟨rfl, rfl⟩

/-- C5 counterexample: a transaction whose stored hash differs from the
recomputed SHA-256 still passes isValid, so a hash mismatch does not make
validation fail. -/
theorem txIsValid_hash_mismatch_accepted :
    ¬(txGood.hash = Transaction.calculateHash shaCE txGood) ∧
    Transaction.isValid shaCE vfTrue 0 txGood false = true := by
  constructor
  · decide
  · decide

/-- C5 amended: the stored hash never influences isValid; on hash mismatch
the source only logs, and the result is exactly the conjunction of the
field-presence, signature and timestamp checks. -/
theorem txIsValid_ignores_stored_hash (sha : String → String)
    (vf : String → String → String → Bool) (now : Nat) (tx : Transaction)
    (h2 : String) :
    Transaction.isValid sha vf now { tx with hash := h2 } false
      = Transaction.isValid sha vf now tx false ∧
    Transaction.isValid sha vf now tx false =
      (requiredFieldsPresent tx && jsTruthy tx.actorSignature
       && jsTruthy tx.actorPublicKey && tx.verifySignature sha vf
       && !(decide (tx.timestamp.millis > now + 60000))) :=
  ⟨rfl, txIsValid_eq sha vf now tx⟩

/-- C6: for a transaction with all required fields, signature and key
present and a verifying signature, isValid holds exactly when the timestamp
is at most 60 seconds ahead of the clock; in particular a timestamp more
than 24 hours old does not fail. -/
theorem txIsValid_timestamp_rule (sha : String → String)
    (vf : String → String → String → Bool) (now : Nat) (tx : Transaction)
    (h1 : tx.transactionType ≠ "") (h2 : tx.batchNo ≠ "")
    (h3 : tx.actorUserId ≠ 0) (h4 : tx.actorRole ≠ "")
    (h5 : jsTruthy tx.actorSignature = true)
    (h6 : jsTruthy tx.actorPublicKey = true)
    (h7 : tx.verifySignature sha vf = true) :
    Transaction.isValid sha vf now tx false
      = decide (tx.timestamp.millis ≤ now + 60000) := by
  rw [txIsValid_eq]
  have hreq : requiredFieldsPresent tx = true := by
    simp [requiredFieldsPresent, h1, h2, h3, h4]
  rw [hreq, h5, h6, h7]
  simp only [Bool.true_and, Bool.and_true]
  by_cases hle : tx.timestamp.millis ≤ now + 60000
  · simp [hle, Nat.not_lt.mpr hle]
  · simp [hle, Nat.lt_of_not_le hle]

/-- Witness for C6 at a concrete transaction: a timestamp 25 hours in the
past (now being 25 hours past the epoch) is still accepted. -/
theorem txIsValid_timestamp_rule_witness :
    txGood.transactionType ≠ "" ∧
    Transaction.isValid shaCE vfTrue 90000000 txGood false
      = decide (txGood.timestamp.millis ≤ 90000000 + 60000) :=
  ⟨by decide,
   txIsValid_timestamp_rule shaCE vfTrue 90000000 txGood (by decide)
     (by decide) (by decide) (by decide) (by decide) (by decide) (by decide)⟩

/-- One combining pass as the spec words it: each adjacent pair (a,b)
emits sha(a ++ b); an odd-length layer pairs its last element with
itself. -/
def specMerkleLayer (sha : String → String) : List String → List String
  | [] => []
  | [a] => [sha (a ++ a)]
  | a :: b :: rest => sha (a ++ b) :: specMerkleLayer sha rest

/-- Length of a spec combining pass. -/
theorem specMerkleLayer_length (sha : String → String) (H : List String) :
    (specMerkleLayer sha H).length = (H.length + 1) / 2 := by
  induction H using specMerkleLayer.induct sha with
  | case1 => rfl
  | case2 a => simp [specMerkleLayer]
  | case3 a b rest ih =>
    simp only [specMerkleLayer, List.length_cons, ih]
    omega

/-- The spec folding: combine layers until one hash remains. -/
def specMerkleFold (sha : String → String) (H : List String) : String :=
  if _h : H.length ≤ 1 then H.headD ""
  else specMerkleFold sha (specMerkleLayer sha H)
termination_by H.length
decreasing_by
  rw [specMerkleLayer_length]
  omega

/-- The spec Merkle root of the ordered transaction hash list: SHA256 of
the empty string for an empty list, otherwise the fold. -/
def specMerkleRoot (sha : String → String) (H : List String) : String :=
  if H.isEmpty then sha "" else specMerkleFold sha H

/-- With enough fuel, the indexed combine loop equals the spec's pairwise
pass on the suffix from the start index. -/
theorem merkleCombineGo_eq_layer (sha : String → String) (hs : List String) :
    ∀ (fuel i : Nat), hs.length ≤ i + 2 * fuel →
    merkleCombineGo sha hs fuel i = specMerkleLayer sha (hs.drop i) := by
  intro fuel
  induction fuel with
  | zero =>
    intro i h
    rw [List.drop_eq_nil_of_le (by omega)]
    rfl
  | succ f ih =>
    intro i h
    rw [merkleCombineGo]
    by_cases h1 : i + 1 < hs.length
    · have h0 : i < hs.length := by omega
      rw [if_pos h1, ih (i + 2) (by omega),
        List.drop_eq_getElem_cons h0, List.drop_eq_getElem_cons h1,
        specMerkleLayer, List.getD_eq_getElem hs "" h0,
        List.getD_eq_getElem hs "" h1]
    · rw [if_neg h1]
      by_cases h2 : i < hs.length
      · rw [if_pos h2, List.drop_eq_getElem_cons h2,
          List.drop_eq_nil_of_le (by omega), specMerkleLayer,
          List.getD_eq_getElem hs "" h2]
      · rw [if_neg h2, List.drop_eq_nil_of_le (by omega), specMerkleLayer]

/-- The source's combine pass equals the spec's pairwise pass. -/
theorem merkleCombineFrom_eq_layer (sha : String → String) (hs : List String)
    (i : Nat) : merkleCombineFrom sha hs i = specMerkleLayer sha (hs.drop i) :=
  merkleCombineGo_eq_layer sha hs hs.length i (by omega)

/-- With enough fuel, the source's while loop equals the spec fold. -/
theorem merkleLoopGo_eq_fold (sha : String → String) :
    ∀ (fuel : Nat) (hs : List String), hs.length ≤ fuel →
    merkleLoopGo sha fuel hs = specMerkleFold sha hs := by
  intro fuel
  induction fuel with
  | zero =>
    intro hs h
    have hnil : hs = [] := List.length_eq_zero.mp (by omega)
    subst hnil
    rw [specMerkleFold, dif_pos (by simp)]
    rfl
  | succ f ih =>
    intro hs h
    rw [merkleLoopGo]
    by_cases h1 : hs.length > 1
    · have hlen : (merkleCombineFrom sha hs 0).length = (hs.length + 1) / 2 := by
        rw [merkleCombineFrom_eq_layer, List.drop_zero, specMerkleLayer_length]
      rw [if_pos h1, ih _ (by omega), merkleCombineFrom_eq_layer,
        List.drop_zero]
      conv_rhs => rw [specMerkleFold]
      rw [dif_neg (show ¬(hs.length ≤ 1) by omega)]
    · rw [if_neg h1]
      rw [specMerkleFold, dif_pos (by omega)]
      cases hs <;> rfl

/-- The source's while loop equals the spec fold. -/
theorem merkleLoop_eq_fold (sha : String → String) (hs : List String) :
    merkleLoop sha hs = specMerkleFold sha hs :=
  merkleLoopGo_eq_fold sha hs.length hs (by omega)

/-- C3: for every block whose transactions carry their stored hashes,
calculateMerkleRoot computes exactly the spec's Merkle root of the ordered
hash list: empty gives SHA256 of the empty string, layers combine adjacent
pairs with odd-end duplication until one hash remains. -/
theorem merkleRoot_matches_spec (sha : String → String) (b : Block)
    (h : ∀ tx ∈ b.transactions, tx.hash ≠ "") :
    b.calculateMerkleRoot sha
      = specMerkleRoot sha (b.transactions.map Transaction.hash) := by
  rw [Block.calculateMerkleRoot, calculateMerkleRootTxs, specMerkleRoot]
  by_cases he : b.transactions.length = 0
  · rw [if_pos he]
    rw [List.length_eq_zero] at he
    rw [he]
    rfl
  · rw [if_neg he]
    have hne : (b.transactions.map Transaction.hash).isEmpty = false := by
      cases hc : b.transactions with
      | nil => exact absurd (by rw [hc]; rfl) he
      | cons x xs => rfl
    rw [hne]
    simp only [Bool.false_eq_true, if_false]
    have hmap : (b.transactions.map fun tx =>
        if tx.hash == "" then hashTransactionFallback sha tx else tx.hash)
        = b.transactions.map Transaction.hash := by
      apply List.map_congr_left
      intro tx htx
      have := h tx htx
      simp [this]
    rw [hmap, merkleLoop_eq_fold]

/-- A second and third concrete transaction for the Merkle witness. -/
def txB : Transaction := { txGood with hash := "bb", nonce := "n2" }

/-- A third concrete transaction for the Merkle witness. -/
def txC : Transaction := { txGood with hash := "cc", nonce := "n3" }

/-- A concrete three-transaction block exercising the odd-layer
duplication. -/
def blkM : Block :=
  { blockNumber := 1, previousHash := "0",
    transactions := [txGood, txB, txC], timestamp := ts0, nonce := 0,
    difficulty := 0, validatorUserId := none, validatorPublicKey := none,
    validatorSignature := none, merkleRoot := "", hash := "" }

/-- Witness for C3 at the concrete three-transaction block. -/
theorem merkleRoot_matches_spec_witness :
    (∀ tx ∈ blkM.transactions, tx.hash ≠ "") ∧
    blkM.calculateMerkleRoot shaCE
      = specMerkleRoot shaCE (blkM.transactions.map Transaction.hash) :=
  ⟨by decide, merkleRoot_matches_spec shaCE blkM (by decide)⟩

/-- C9: Transaction.fromJSON inverts Transaction.toJSON: every serialized
field (type, batch, actor id/role/key/signature, data, entity ids,
document hashes, timestamp, nonce) is restored and the hash, not passed
back, is recomputed over those same fields; when the original hash was
itself computed from the transaction's fields, the whole round trip is the
identity. -/
theorem tx_json_roundtrip (sha : String → String) (tx : Transaction)
    (fresh : String) (hn : tx.nonce ≠ "") :
    Transaction.fromJSON sha tx.toJSON fresh
      = { tx with hash := Transaction.calculateHash sha tx } ∧
    (tx.hash = Transaction.calculateHash sha tx →
      Transaction.fromJSON sha tx.toJSON fresh = tx) := by
  have hb : jsTruthy (some tx.nonce) = true := by simp [jsTruthy, hn]
  have h1 : Transaction.fromJSON sha tx.toJSON fresh
      = { tx with hash := Transaction.calculateHash sha tx } := by
    simp only [Transaction.fromJSON, Transaction.toJSON, mkTransaction,
      jsTruthy, Option.getD_some, Transaction.calculateHash]
    simp [hn]
  refine ⟨h1, fun hh => ?_⟩
  rw [h1, ← hh]

/-- Witness for C9 at the concrete transaction txGood. -/
theorem tx_json_roundtrip_witness :
    txGood.nonce ≠ "" ∧
    Transaction.fromJSON shaCE txGood.toJSON "freshNonce"
      = { txGood with hash := Transaction.calculateHash shaCE txGood } :=
  ⟨by decide, (tx_json_roundtrip shaCE txGood "freshNonce" (by decide)).1⟩

/-- The rate-limit map reached after n admission checks of user u at time
t, starting from the empty map. -/
def rateStates (u t : Nat) : Nat → RateMap
  | 0 => []
  | n + 1 => (checkRateLimit (rateStates u t n) u t).2

/-- Within the window and quota, the map after n checks of a single user
is the singleton entry with count n. -/
theorem rateStates_eq (u t : Nat) :
    ∀ n, n ≤ 100 → rateStates u t n
      = if n = 0 then [] else [(u, ⟨n, t + rateLimitWindow⟩)] := by
  intro n
  induction n with
  | zero => intro _; rfl
  | succ k ih =>
    intro hk
    rw [rateStates, ih (by omega)]
    by_cases h0 : k = 0
    · subst h0
      simp [checkRateLimit, lookupRate, setRate]
    · rw [if_neg h0]
      have hcount : ¬(k ≥ rateLimitMax) := by
        rw [rateLimitMax]
        omega
      have htime : ¬(t > t + rateLimitWindow) := by omega
      simp [checkRateLimit, lookupRate, setRate, List.find?_cons, hcount, htime]

/-- C7: starting from an empty window, each of the first 100 checks of a
user succeeds, the 101st fails, a failed check leaves the map untouched
(no quota consumed), and a check after the entry's reset time succeeds and
resets the count to 1. -/
theorem rateLimit_window_behavior (u t : Nat) :
    (∀ n, 1 ≤ n → n ≤ 100 →
      (checkRateLimit (rateStates u t (n - 1)) u t).1 = true) ∧
    (checkRateLimit (rateStates u t 100) u t).1 = false ∧
    (checkRateLimit (rateStates u t 100) u t).2 = rateStates u t 100 ∧
    (∀ m e t2, lookupRate m u = some e → t2 > e.resetTime →
      checkRateLimit m u t2 = (true, setRate m u ⟨1, t2 + rateLimitWindow⟩)) := by
  have h100 := rateStates_eq u t 100 (by omega)
  refine ⟨?_, ?_, ?_, ?_⟩
  · intro n h1 h2
    rw [rateStates_eq u t (n - 1) (by omega)]
    by_cases h0 : n - 1 = 0
    · simp [h0, checkRateLimit, lookupRate]
    · rw [if_neg h0]
      have hcount : ¬(n - 1 ≥ rateLimitMax) := by
        rw [rateLimitMax]
        omega
      have htime : ¬(t > t + rateLimitWindow) := by omega
      simp [checkRateLimit, lookupRate, List.find?_cons, hcount, htime]
  · rw [h100]
    simp only [if_neg (by omega : ¬(100 = 0))]
    have htime : ¬(t > t + rateLimitWindow) := by omega
    simp [checkRateLimit, lookupRate, List.find?_cons, htime, rateLimitMax]
  · rw [h100]
    simp only [if_neg (by omega : ¬(100 = 0))]
    have htime : ¬(t > t + rateLimitWindow) := by omega
    simp [checkRateLimit, lookupRate, List.find?_cons, htime, rateLimitMax]
  · intro m e t2 hm ht
    rw [checkRateLimit, hm]
    simp [ht]

/-- Witness for C7 at user 9 starting at time 0: the 100th check passes,
the 101st fails, and a check one millisecond past the reset time of a full
window resets the count to 1. -/
theorem rateLimit_window_behavior_witness :
    (checkRateLimit (rateStates 9 0 (100 - 1)) 9 0).1 = true ∧
    (checkRateLimit (rateStates 9 0 100) 9 0).1 = false ∧
    checkRateLimit [(9, ⟨100, 60000⟩)] 9 60001
      = (true, setRate [(9, ⟨100, 60000⟩)] 9 ⟨1, 60001 + rateLimitWindow⟩) :=
  ⟨(rateLimit_window_behavior 9 0).1 100 (by decide) (by decide),
   (rateLimit_window_behavior 9 0).2.1,
   (rateLimit_window_behavior 9 0).2.2.2 [(9, ⟨100, 60000⟩)] ⟨100, 60000⟩
     60001 (by decide) (by decide)⟩

/-- find? returns the head of the filtered list. -/
theorem find?_eq_head_filter {α : Type} (p : α → Bool) (l : List α) :
    l.find? p = (l.filter p).head? := by
  induction l with
  | nil => rfl
  | cons a l ih =>
    cases hp : p a
    · rw [List.find?_cons_of_neg _ (by simp [hp]),
        List.filter_cons_of_neg (by simp [hp]), ih]
    · rw [List.find?_cons_of_pos _ hp, List.filter_cons_of_pos hp,
        List.head?_cons]

/-- The behavior the spec ascribes to generate(user_id): when an ACTIVE
record exists it is version-incremented and replaced in place, otherwise a
fresh active version-1 record is inserted; the returned version matches. -/
def specGenerateOk (store : KeyStore) (userId : Nat) (pub encPriv : String)
    (res : GenResult) (stored : KeyStore) : Bool :=
  match store.find? fun r => r.user_id == userId && r.is_active with
  | some r0 =>
    res.keyVersion == r0.key_version + 1 &&
    stored == (store.map fun r =>
      if r.user_id == userId && r.is_active then
        { r with
          public_key := pub, encrypted_private_key := encPriv,
          key_version := r0.key_version + 1 }
      else r)
  | none =>
    res.keyVersion == 1 &&
    stored == store ++ [{
      user_id := userId, public_key := pub,
      encrypted_private_key := encPriv, key_version := 1, is_active := true }]

/-- The behavior the source actually implements: any existing record for
the user (active or not) triggers the in-place rotation, with is_active
left untouched. -/
def codeGenerateOk (store : KeyStore) (userId : Nat) (pub encPriv : String)
    (res : GenResult) (stored : KeyStore) : Bool :=
  match store.find? fun r => r.user_id == userId with
  | some r0 =>
    res.keyVersion == r0.key_version + 1 &&
    stored == (store.map fun r =>
      if r.user_id == userId then
        { r with
          public_key := pub, encrypted_private_key := encPriv,
          key_version := r0.key_version + 1 }
      else r)
  | none =>
    res.keyVersion == 1 &&
    stored == store ++ [{
      user_id := userId, public_key := pub,
      encrypted_private_key := encPriv, key_version := 1, is_active := true }]

/-- A store holding one INACTIVE record for user 1 at version 5. -/
def keyStore0 : KeyStore :=
  [{
     user_id := 1, public_key := "p0", encrypted_private_key := "e0",
     key_version := 5, is_active := false }]

/-- C8 counterexample: with only an inactive record present, the spec's
contract demands a fresh active version-1 row, but the source rotates the
inactive record in place and returns version 6. -/
theorem generateKeys_inactive_record_rotated :
    specGenerateOk keyStore0 1 "pub"
        (encryptPrivateKey toyGCM shaCE (some "secret") "priv" 1 "00")
        (generateKeysForUser toyGCM shaCE (some "secret") keyStore0 1
          "pub" "priv" "00").1
        (generateKeysForUser toyGCM shaCE (some "secret") keyStore0 1
          "pub" "priv" "00").2 = false ∧
    (generateKeysForUser toyGCM shaCE (some "secret") keyStore0 1
      "pub" "priv" "00").1.keyVersion = 6 := by
  constructor
  · decide
  · decide

/-- C8 amended: generateKeysForUser rotates whenever ANY record for the
user exists, incrementing from the first matching row's version and
leaving is_active untouched; with no record at all it inserts an active
version-1 row; in both cases every stored row of the user carries the
returned key version. -/
theorem generateKeys_rotates_any_existing_record (C : GCMCipher)
    (sha : String → String) (jwt : Option String) (store : KeyStore)
    (userId : Nat) (pub priv iv : String) :
    codeGenerateOk store userId pub
        (encryptPrivateKey C sha jwt priv userId iv)
        (generateKeysForUser C sha jwt store userId pub priv iv).1
        (generateKeysForUser C sha jwt store userId pub priv iv).2 = true ∧
    (∀ r ∈ (generateKeysForUser C sha jwt store userId pub priv iv).2,
      r.user_id = userId →
      r.key_version
        = (generateKeysForUser C sha jwt store userId pub priv iv).1.keyVersion) := by
  rw [codeGenerateOk, find?_eq_head_filter, generateKeysForUser]
  cases hf : store.filter (fun r => r.user_id == userId) with
  | nil =>
    simp only [hf, List.head?_nil]
    constructor
    · simp
    · intro r hr hu
      rcases List.mem_append.mp hr with hin | hnew
      · have : ¬(r.user_id == userId) = true := by
          intro hb
          have := List.filter_eq_nil_iff.mp hf r hin
          exact this hb
        exact absurd (by simp [hu]) this
      · simp only [List.mem_singleton] at hnew
        subst hnew
        rfl
  | cons r0 rest =>
    simp only [hf, List.head?_cons]
    constructor
    · simp
    · intro r hr hu
      rcases List.mem_map.mp hr with ⟨r1, hr1, hmap⟩
      by_cases hid : (r1.user_id == userId) = true
      · rw [if_pos hid] at hmap
        subst hmap
        rfl
      · rw [if_neg hid] at hmap
        subst hmap
        exact absurd (by simp [hu]) hid

/-- Witness for C8 at the concrete inactive-record store. -/
theorem generateKeys_rotates_any_existing_record_witness :
    codeGenerateOk keyStore0 1 "pub"
        (encryptPrivateKey toyGCM shaCE (some "secret") "priv" 1 "00")
        (generateKeysForUser toyGCM shaCE (some "secret") keyStore0 1
          "pub" "priv" "00").1
        (generateKeysForUser toyGCM shaCE (some "secret") keyStore0 1
          "pub" "priv" "00").2 = true :=
  (generateKeys_rotates_any_existing_record toyGCM shaCE (some "secret")
    keyStore0 1 "pub" "priv" "00").1

/-- A colon-free character list is one single split part. -/
theorem splitOnColonChars_no_colon (a : List Char) (ha : ':' ∉ a) :
    splitOnColonChars a = [a] := by
  induction a with
  | nil => rfl
  | cons c rest ih =>
    have hc : ¬(c = ':') := fun h => ha (h ▸ List.mem_cons_self c rest)
    have hrest : ':' ∉ rest := fun h => ha (List.mem_cons_of_mem c h)
    rw [splitOnColonChars]
    simp only [if_neg hc, ih hrest]

/-- Splitting peels one colon-free prefix before a colon. -/
theorem splitOnColonChars_append (a b : List Char) (ha : ':' ∉ a) :
    splitOnColonChars (a ++ ':' :: b) = a :: splitOnColonChars b := by
  induction a with
  | nil =>
    rw [List.nil_append, splitOnColonChars]
    simp
  | cons c rest ih =>
    have hc : ¬(c = ':') := fun h => ha (h ▸ List.mem_cons_self c rest)
    have hrest : ':' ∉ rest := fun h => ha (List.mem_cons_of_mem c h)
    rw [List.cons_append, splitOnColonChars]
    simp only [if_neg hc, ih hrest]

/-- Hex strings contain no colon. -/
theorem no_colon_of_isHex (s : String) (h : isHexString s = true) :
    ':' ∉ s.toList := by
  rw [isHexString, List.all_eq_true] at h
  intro hc
  exact absurd (h ':' hc) (by decide)

/-- Round trip between a string and its character list. -/
theorem asString_toList (s : String) : s.toList.asString = s := by
  cases s
  simp [List.asString, String.toList]

/-- Round trip between a string and its data field. -/
theorem asString_data (s : String) : s.data.asString = s :=
  asString_toList s

/-- JS split(':') recovers the three parts of an iv:tag:ciphertext
string whose parts are colon-free. -/
theorem jsSplitColon_three (iv tag ct : String) (h1 : ':' ∉ iv.toList)
    (h2 : ':' ∉ tag.toList) (h3 : ':' ∉ ct.toList) :
    jsSplitColon (iv ++ ":" ++ tag ++ ":" ++ ct) = [iv, tag, ct] := by
  have hlist : (iv ++ ":" ++ tag ++ ":" ++ ct).toList
      = iv.toList ++ ':' :: (tag.toList ++ ':' :: ct.toList) := by
    simp [String.toList]
  rw [jsSplitColon, hlist, splitOnColonChars_append _ _ h1,
    splitOnColonChars_append _ _ h2, splitOnColonChars_no_colon _ h3]
  simp [asString_data]

/-- C10: sealing a private key for a user and unsealing it for the same
user returns the key; the sealed string is exactly the three-part
iv_hex:tag_hex:ciphertext_hex form with hex tag and ciphertext; and
unsealing under a different user id, whose derived secret differs, fails
with the decryption error. -/
theorem privateKey_seal_roundtrip (C : GCMCipher) (sha : String → String)
    (jwt : Option String) (k : String) (u u2 : Nat) (iv : String)
    (hiv : isHexString iv = true)
    (hu : getEncryptionSecret sha jwt u none
      ≠ getEncryptionSecret sha jwt u2 none) :
    decryptPrivateKey C sha jwt (encryptPrivateKey C sha jwt k u iv) u none
      = .ok k ∧
    encryptPrivateKey C sha jwt k u iv
      = iv ++ ":" ++ (C.encrypt (getEncryptionSecret sha jwt u none) iv k).2
        ++ ":" ++ (C.encrypt (getEncryptionSecret sha jwt u none) iv k).1 ∧
    isHexString (C.encrypt (getEncryptionSecret sha jwt u none) iv k).2
      = true ∧
    isHexString (C.encrypt (getEncryptionSecret sha jwt u none) iv k).1
      = true ∧
    decryptPrivateKey C sha jwt (encryptPrivateKey C sha jwt k u iv) u2 none
      = .error "Failed to decrypt private key" := by
  have htag := C.encrypt_hex_tag (getEncryptionSecret sha jwt u none) iv k
  have hct := C.encrypt_hex_ct (getEncryptionSecret sha jwt u none) iv k
  have hsplit := jsSplitColon_three iv
    (C.encrypt (getEncryptionSecret sha jwt u none) iv k).2
    (C.encrypt (getEncryptionSecret sha jwt u none) iv k).1
    (no_colon_of_isHex _ hiv) (no_colon_of_isHex _ htag)
    (no_colon_of_isHex _ hct)
  refine ⟨?_, rfl, htag, hct, ?_⟩
  · rw [decryptPrivateKey, encryptPrivateKey]
    rw [hsplit]
    show (match C.decrypt (getEncryptionSecret sha jwt u none) iv
        (C.encrypt (getEncryptionSecret sha jwt u none) iv k).1
        (C.encrypt (getEncryptionSecret sha jwt u none) iv k).2 with
      | some m => Except.ok m
      | none => Except.error "Failed to decrypt private key") = Except.ok k
    rw [C.decrypt_encrypt]
  · rw [decryptPrivateKey, encryptPrivateKey]
    rw [hsplit]
    show (match C.decrypt (getEncryptionSecret sha jwt u2 none) iv
        (C.encrypt (getEncryptionSecret sha jwt u none) iv k).1
        (C.encrypt (getEncryptionSecret sha jwt u none) iv k).2 with
      | some m => Except.ok m
      | none => Except.error "Failed to decrypt private key")
      = Except.error "Failed to decrypt private key"
    rw [C.decrypt_wrong_key _ _ _ _ hu]

/-- Witness for C10 with the law-abiding toy cipher: sealing "priv" for
user 1 and unsealing for user 1 succeeds while user 2 fails. -/
theorem privateKey_seal_roundtrip_witness :
    isHexString "00" = true ∧
    decryptPrivateKey toyGCM hexEncodeStr (some "s")
      (encryptPrivateKey toyGCM hexEncodeStr (some "s") "priv" 1 "00") 1 none
      = .ok "priv" ∧
    decryptPrivateKey toyGCM hexEncodeStr (some "s")
      (encryptPrivateKey toyGCM hexEncodeStr (some "s") "priv" 1 "00") 2 none
      = .error "Failed to decrypt private key" :=
  ⟨by decide,
   (privateKey_seal_roundtrip toyGCM hexEncodeStr (some "s") "priv" 1 2 "00"
     (by decide) (by decide)).1,
   (privateKey_seal_roundtrip toyGCM hexEncodeStr (some "s") "priv" 1 2 "00"
     (by decide) (by decide)).2.2.2.2⟩

/-- The P5 signature invariant the spec states for accepted chains: every
transaction of every block verifies under the ECDSA primitive. -/
def signatureInvariantP5 (sha : String → String)
    (vf : String → String → String → Bool) (chain : List Block) : Prop :=
  ∀ b ∈ chain, ∀ tx ∈ b.transactions,
    Transaction.verifySignature sha vf tx = true

/-- A block accepted by Block.isValid has only transactions whose required
fields are present (their isValid is invoked, possibly with crypto checks
skipped, and its first check is field presence). -/
theorem blockValid_txFields (sha : String → String)
    (vf : String → String → String → Bool) (now : Nat) (b : Block)
    (h : Block.isValid sha vf now b = true) :
    ∀ tx ∈ b.transactions, requiredFieldsPresent tx = true := by
  rw [Block.isValid] at h
  split_ifs at h
  intro tx htx
  simp only [List.all_eq_true] at h
  have htx2 := h tx htx
  rw [Transaction.isValid] at htx2
  cases hc : (tx.transactionType == "" || tx.batchNo == ""
      || tx.actorUserId == 0 || tx.actorRole == "") with
  | false =>
    rw [requiredFieldsPresent, hc]
    rfl
  | true =>
    rw [hc] at htx2
    simp at htx2

/-- Every block of the validated segment has only transactions with
required fields present. -/
theorem chainSegmentValid_txFields (sha : String → String)
    (vf : String → String → String → Bool) (now : Nat) (bs : List Block) :
    ∀ prev : Block, chainSegmentValid sha vf now prev bs = true →
    ∀ b ∈ bs, ∀ tx ∈ b.transactions, requiredFieldsPresent tx = true := by
  induction bs with
  | nil =>
    intro prev _ b hb
    exact absurd hb (List.not_mem_nil b)
  | cons b0 rest ih =>
    intro prev h b hb
    rw [chainSegmentValid] at h
    split_ifs at h with hA hB hC hD
    rcases List.mem_cons.mp hb with rfl | hmem
    · have hv : Block.isValid sha vf now b = true := by
        simpa using hA
      exact blockValid_txFields sha vf now b hv
    · exact ih b0 h b hmem

/-- C1 amended: an accepted chain guarantees only that every transaction of
every non-genesis block has its required fields present; signatures are
never verified, because every block that holds transactions (or is
genesis) sets skipCryptoValidation. -/
theorem chainValid_requires_only_tx_fields (sha : String → String)
    (vf : String → String → String → Bool) (now : Nat) (chain : List Block)
    (h : isChainValid sha vf now chain = true) :
    ∀ b ∈ chain.drop 1, ∀ tx ∈ b.transactions,
      requiredFieldsPresent tx = true := by
  cases chain with
  | nil => simp [isChainValid] at h
  | cons g rest =>
    rw [isChainValid] at h
    split_ifs at h with hg
    exact chainSegmentValid_txFields sha vf now rest g h

/-- Genesis block of the counterexample chain. -/
def genesisCE : Block := mkBlock shaCE 0 "0" [] ts0 0 0 none none none none none

/-- The non-genesis counterexample block holding a transaction whose
signature verifies under no primitive. -/
def blockCE : Block :=
  mkBlock shaCE 1 genesisCE.hash [txGood] ts0 0 2 none none none none none

/-- The counterexample chain. -/
def chainCE : List Block := [genesisCE, blockCE]

/-- C1 counterexample: the chain passes isChainValid even under a
signature primitive that rejects everything, so signature validity of the
contained transactions is not implied by chain validation. -/
theorem chainValid_accepts_invalid_signature :
    isChainValid shaCE vfFalse 0 chainCE = true ∧
    ¬ signatureInvariantP5 shaCE vfFalse chainCE := by
  constructor
  · decide
  · intro h
    have hmem : blockCE ∈ chainCE :=
      List.mem_cons_of_mem _ (List.mem_cons_self _ _)
    have htx : txGood ∈ blockCE.transactions := by
      show txGood ∈ [txGood]
      exact List.mem_cons_self _ _
    exact absurd (h blockCE hmem txGood htx) (by decide)

/-- Witness for the amended C1 at the concrete counterexample chain. -/
theorem chainValid_requires_only_tx_fields_witness :
    isChainValid shaCE vfFalse 0 chainCE = true ∧
    (∀ b ∈ chainCE.drop 1, ∀ tx ∈ b.transactions,
      requiredFieldsPresent tx = true) :=
  ⟨by decide, chainValid_requires_only_tx_fields shaCE vfFalse 0 chainCE
    (by decide)⟩

/-- Blockchain.createBlock appends the sealed block to the chain whenever
it returns one. -/
theorem bcCreateBlock_chain (sha : String → String)
    (sg : String → String → String) (st : ChainState) (vuid : Option Nat)
    (vpriv vpub : Option String) (ts : DateJS) (fuel : Nat) (b : Block)
    (st2 : ChainState)
    (h : bcCreateBlock sha sg st vuid vpriv vpub ts fuel
      = some (some b, st2)) :
    st2.chain = st.chain ++ [b] := by
  rw [bcCreateBlock.eq_def] at h
  by_cases h0 : st.pendingTransactions.length = 0
  · rw [if_pos h0] at h
    simp at h
  · rw [if_neg h0] at h
    simp only [Option.map_eq_some'] at h
    obtain ⟨mined, _hm, hf⟩ := h
    simp only [Prod.mk.injEq, Option.some.injEq] at hf
    obtain ⟨hb, hst⟩ := hf
    rw [← hst, ← hb]

/-- The in-memory service state before the failing seal: genesis only,
nothing pending, empty replay set and rate map. -/
def stC2 : SvcState :=
  { bc := {
      chain := [genesisCE], pendingTransactions := [],
      processedTransactions := [], difficulty := 2 },
    rateMap := [] }

/-- The admitted transaction of the failing-persistence run, built by the
embedded constructor (hash computed from its fields). -/
def txC2 : Transaction :=
  mkTransaction shaCE "BATCH_CREATE" "B1" 7 "farmer" (some "pk") (some "sg")
    Json.null none none none ts0 none none "n7"

/-- C2 counterexample: when persistBlock fails, addTransaction reports
failure but the in-memory chain has grown from one to two blocks: the
appended block is not rolled back. -/
theorem persistFailure_no_rollback_example :
    ((serviceAddTransaction shaCE vfTrue sgCE 0 stC2 txC2 ts0 none none
        false 5).map fun r => (r.1.success, r.2.bc.chain.length))
      = some (false, 2) ∧
    stC2.bc.chain.length = 1 := by
  constructor
  · decide
  · decide

/-- C2 amended: whenever a transaction is admitted (rate check passes, it
is valid, not a replay, the pool stays under the block size) and the mined
block's persistence fails, addTransaction returns a failure result while
the sealed block remains appended to the in-memory chain: there is no
rollback. -/
theorem persistFailure_leaves_block_in_chain (sha : String → String)
    (vf : String → String → String → Bool) (sg : String → String → String)
    (now : Nat) (st : SvcState) (tx : Transaction) (ts : DateJS)
    (vuid : Option Nat) (vkeys : Option (String × String)) (fuel : Nat)
    (b : Block) (bc3 : ChainState)
    (hrate : (checkRateLimit st.rateMap tx.actorUserId now).1 = true)
    (hvalid : tx.isValid sha vf now false = true)
    (hreplay : st.bc.processedTransactions.contains tx.hash = false)
    (hsize : st.bc.pendingTransactions.length + 1 < 5000)
    (hseal : bcCreateBlock sha sg
        { st.bc with
          pendingTransactions := st.bc.pendingTransactions ++ [tx],
          processedTransactions := st.bc.processedTransactions ++ [tx.hash] }
        vuid (vkeys.map fun p => p.1) (vkeys.map fun p => p.2) ts fuel
      = some (some b, bc3)) :
    serviceAddTransaction sha vf sg now st tx ts vuid vkeys false fuel
      = some ({
          success := false, block := none, pending := false,
          errorMsg := some "persistBlock failed" },
        { st with
          rateMap := (checkRateLimit st.rateMap tx.actorUserId now).2,
          bc := bc3 }) ∧
    bc3.chain = st.bc.chain ++ [b] := by
  have hlen : ¬((st.bc.pendingTransactions ++ [tx]).length ≥ 5000) := by
    simp only [List.length_append, List.length_singleton]
    omega
  constructor
  · simp only [serviceAddTransaction, hrate, hvalid, hreplay, hlen,
      Bool.not_true, Bool.false_eq_true, if_false, Bool.not_false,
      Bool.true_eq_false, ite_false, ite_true, if_neg hlen, hseal]
  · have := bcCreateBlock_chain sha sg
      { st.bc with
        pendingTransactions := st.bc.pendingTransactions ++ [tx],
        processedTransactions := st.bc.processedTransactions ++ [tx.hash] }
      vuid (vkeys.map fun p => p.1) (vkeys.map fun p => p.2) ts fuel b bc3
      hseal
    exact this

/-- The chain-engine state after admitting txC2, before sealing. -/
def bcC2in : ChainState :=
  {
    chain := [genesisCE], pendingTransactions := [txC2],
    processedTransactions := [txC2.hash], difficulty := 2 }

/-- The concrete seal run of the witness. -/
def c2run : Option (Option Block × ChainState) :=
  bcCreateBlock shaCE sgCE bcC2in none none none ts0 5

/-- The block the witness run seals. -/
def bC2 : Block :=
  match c2run with
  | some (some b, _) => b
  | _ => genesisCE

/-- The chain-engine state after the witness run's seal. -/
def bcC2out : ChainState :=
  match c2run with
  | some (_, st) => st
  | _ => bcC2in

/-- Witness for the amended C2 at the concrete failing-persistence run. -/
theorem persistFailure_leaves_block_in_chain_witness :
    (checkRateLimit stC2.rateMap txC2.actorUserId 0).1 = true ∧
    serviceAddTransaction shaCE vfTrue sgCE 0 stC2 txC2 ts0 none none false 5
      = some ({
          success := false, block := none, pending := false,
          errorMsg := some "persistBlock failed" },
        { stC2 with
          rateMap := (checkRateLimit stC2.rateMap txC2.actorUserId 0).2,
          bc := bcC2out }) ∧
    bcC2out.chain = stC2.bc.chain ++ [bC2] :=
  ⟨by decide,
   (persistFailure_leaves_block_in_chain shaCE vfTrue sgCE 0 stC2 txC2 ts0
     none none 5 bC2 bcC2out (by decide) (by decide) (by decide) (by decide)
     (by rfl)).1,
   (persistFailure_leaves_block_in_chain shaCE vfTrue sgCE 0 stC2 txC2 ts0
     none none 5 bC2 bcC2out (by decide) (by decide) (by decide) (by decide)
     (by rfl)).2⟩
